import Mathlib

/-!
# Verification of safe-env-lite

A shallow embedding of the `safe-env-lite` environment-variable validation
library (`src/index.ts`, compiled form `dist/index.js`) and proofs about it.

The library exposes one function, `createEnv(defs)`: it normalizes each field
declaration, reads the raw string value from the process environment, coerces
it to the declared primitive type (or checks enum membership), collects one
`Problem` per failing field, and either throws a single `EnvValidationError`
carrying all problems or returns a frozen result object.

Embedding conventions:
* JavaScript `undefined` is `Option.none`; a JS value that is a string, number,
  boolean or `null` is a `Value`.
* JS numbers are modelled as `JSNum`: NaN, signed infinity, or an exact
  rational (the IEEE-754 rounding of in-range finite results is not modelled;
  every numeric literal appearing in a claim is small enough to be exact).
* The process environment (`process.env`) is a lookup `String → Option String`
  passed as an argument.
* `String.prototype.toLowerCase` is modelled by Lean's ASCII `String.toLower`
  (the strings it is compared against are ASCII).
* `Object.freeze` and subsequent property writes/deletes are modelled by a
  `JSObject` carrying a `frozen` flag, with JS non-strict semantics: a write
  or delete on a frozen object is a no-op.
-/

namespace SafeEnvLite

/-! ## JS values -/

/-- A JavaScript number: NaN, an infinity, or an exact finite value. -/
inductive JSNum
  | nan
  | inf (neg : Bool)
  | finite (q : ℚ)
deriving DecidableEq, Repr

/-- A defined JS value of the shapes this library handles:
string, number, boolean or `null`.  `undefined` is `Option.none` outside. -/
inductive Value
  | str (s : String)
  | num (n : JSNum)
  | bool (b : Bool)
  | null
deriving DecidableEq, Repr

/-! ## The JS `Number(string)` conversion (ECMAScript StringToNumber)

`coerceValue` calls the built-in `Number(raw)` on the raw string.  We model
the ECMAScript StringToNumber algorithm: strip leading/trailing JS
whitespace; the empty remainder is `0`; `0x`/`0o`/`0b` prefixes introduce
hex/octal/binary integer literals; otherwise an optionally signed decimal
literal (digits, optional fraction, optional exponent) or `Infinity`;
anything else is NaN. -/

/-- The characters StringToNumber trims: ECMAScript WhiteSpace
(TAB, VT, FF, SP, NBSP, ZWNBSP and the Unicode Zs category) and
LineTerminator (LF, CR, LS, PS). -/
def jsWhitespaceChars : List Char :=
  [' ', '\t', '\n', '\r', '\x0b', '\x0c', '\u00A0', '\u1680',
   '\u2000', '\u2001', '\u2002', '\u2003', '\u2004', '\u2005', '\u2006',
   '\u2007', '\u2008', '\u2009', '\u200A',
   '\u2028', '\u2029', '\u202F', '\u205F', '\u3000', '\uFEFF']

def isJSWhitespace (c : Char) : Bool :=
  jsWhitespaceChars.contains c

/-- Strip JS whitespace from both ends of a character list. -/
def trimJSWhite (l : List Char) : List Char :=
  ((l.dropWhile isJSWhitespace).reverse.dropWhile isJSWhitespace).reverse

/-- The value of `c` as a digit in base `base` (hex digits allowed up to 16),
or `none` if `c` is not a digit of that base. -/
def digitVal? (base : Nat) (c : Char) : Option Nat :=
  let v : Option Nat :=
    if '0' ≤ c ∧ c ≤ '9' then some (c.toNat - '0'.toNat)
    else if 'a' ≤ c ∧ c ≤ 'f' then some (c.toNat - 'a'.toNat + 10)
    else if 'A' ≤ c ∧ c ≤ 'F' then some (c.toNat - 'A'.toNat + 10)
    else none
  match v with
  | some n => if n < base then some n else none
  | none => none

/-- Value of a non-empty all-valid digit string in base `base`, else `none`
(the whole remainder of a `0x`/`0o`/`0b` literal must be digits). -/
def parseRadixDigits (base : Nat) (l : List Char) : Option Nat :=
  if l = [] then none
  else
    l.foldl
      (fun acc c =>
        match acc, digitVal? base c with
        | some a, some d => some (a * base + d)
        | _, _ => none)
      (some 0)

/-- Numeric value of a list of decimal digit characters. -/
def decDigitsVal (ds : List Char) : Nat :=
  ds.foldl (fun a c => a * 10 + (c.toNat - '0'.toNat)) 0

/-- Split off a (possibly empty) leading run of decimal digits. -/
def splitDecDigits (l : List Char) : List Char × List Char :=
  (l.takeWhile Char.isDigit, l.dropWhile Char.isDigit)

/-- Parse the optional exponent part (`e`/`E`, optional sign, digits) that
must consume the rest of the literal; `[]` means exponent `0`. -/
def parseExponentPart : List Char → Option Int
  | [] => some 0
  | c :: rest =>
    if c = 'e' ∨ c = 'E' then
      let (sgn, rest2) : Int × List Char :=
        match rest with
        | '+' :: r => (1, r)
        | '-' :: r => (-1, r)
        | r => (1, r)
      let (ds, rest3) := splitDecDigits rest2
      if ds ≠ [] ∧ rest3 = [] then some (sgn * (decDigitsVal ds : Int)) else none
    else none

/-- Parse `StrUnsignedDecimalLiteral` without the `Infinity` alternative:
`DecimalDigits [. DecimalDigits] [Exponent]` or `. DecimalDigits [Exponent]`,
consuming the whole list. Returns the exact mathematical value. -/
def parseUnsignedDecimal (l : List Char) : Option ℚ :=
  match l with
  | '.' :: rest =>
    let (frac, rest2) := splitDecDigits rest
    if frac = [] then none
    else
      (parseExponentPart rest2).map fun e =>
        ((decDigitsVal frac : ℚ) / (10 : ℚ) ^ frac.length) * (10 : ℚ) ^ e
  | _ =>
    let (ip, rest) := splitDecDigits l
    if ip = [] then none
    else
      match rest with
      | '.' :: rest2 =>
        let (frac, rest3) := splitDecDigits rest2
        (parseExponentPart rest3).map fun e =>
          ((decDigitsVal ip : ℚ) + (decDigitsVal frac : ℚ) / (10 : ℚ) ^ frac.length)
            * (10 : ℚ) ^ e
      | _ =>
        (parseExponentPart rest).map fun e => (decDigitsVal ip : ℚ) * (10 : ℚ) ^ e

/-- Parse `StrDecimalLiteral`: optional sign, then `Infinity` or an unsigned
decimal literal. -/
def parseStrDecimalLiteral (l : List Char) : JSNum :=
  let (neg, rest) : Bool × List Char :=
    match l with
    | '+' :: r => (false, r)
    | '-' :: r => (true, r)
    | r => (false, r)
  if rest = "Infinity".toList then .inf neg
  else
    match parseUnsignedDecimal rest with
    | none => .nan
    | some q => .finite (if neg then -q else q)

/-- ECMAScript `StringToNumber`, i.e. `Number(s)` for a string argument. -/
def jsStringToNumber (s : String) : JSNum :=
  let t := trimJSWhite s.toList
  if t = [] then .finite 0
  else
    match t with
    | '0' :: c :: rest =>
      if c = 'x' ∨ c = 'X' then
        match parseRadixDigits 16 rest with
        | none => .nan
        | some n => .finite n
      else if c = 'o' ∨ c = 'O' then
        match parseRadixDigits 8 rest with
        | none => .nan
        | some n => .finite n
      else if c = 'b' ∨ c = 'B' then
        match parseRadixDigits 2 rest with
        | none => .nan
        | some n => .finite n
      else parseStrDecimalLiteral t
    | _ => parseStrDecimalLiteral t

/-- `String.prototype.toLowerCase()` as the boolean coercion uses it:
per-character lowering (`Char.toLower` lowers exactly the ASCII range, which
covers every string the result is compared against). -/
def jsToLowerCase (s : String) : String :=
  ⟨s.data.map Char.toLower⟩

/-! ## Schema types (`PrimitiveType`, `ShortDef | LongDef`, `EnvDef`) -/

/-- `type PrimitiveType = "string" | "number" | "boolean"`. -/
inductive PrimitiveType
  | string
  | number
  | boolean
deriving DecidableEq, Repr

/-- Long-form field descriptor:
`{ type; required?; default?; nullable?; description? }`.
An absent optional property is `none`. -/
structure LongDef where
  type : PrimitiveType
  required : Option Bool
  default : Option Value
  nullable : Option Bool
  description : Option String
deriving DecidableEq, Repr

/-- A field declaration `ShortDef | LongDef`: an enum shorthand
(`readonly string[]`), a bare primitive tag, or a long-form descriptor. -/
inductive FieldDef
  | shortEnum (values : List String)
  | shortPrim (t : PrimitiveType)
  | long (l : LongDef)
deriving DecidableEq, Repr

/-- The `primitive` variant of `NormalizedDef`. -/
structure PrimField where
  type : PrimitiveType
  required : Bool
  default : Option Value
  nullable : Bool
deriving DecidableEq, Repr

/-- `NormalizedDef`: `{kind:"enum"; values; required}` or
`{kind:"primitive"; type; required; default?; nullable?}`. -/
inductive NormalizedDef
  | enum (values : List String) (required : Bool)
  | primitive (p : PrimField)
deriving DecidableEq, Repr

/-! ## `normalizeDef` -/

/-- `normalizeDef(d)`: an array becomes an enum with its values passed
through `String` (the identity on strings) and `required: true`; a bare
primitive tag becomes a primitive with `required: true` and no
`default`/`nullable` properties; a long form keeps its `type`, takes
`!!longDef.required` (the dead `|| (default === undefined ? false : false)`
of the source is reproduced), its `default`, and `!!longDef.nullable`. -/
def normalizeDef : FieldDef → NormalizedDef
  | .shortEnum vs => .enum (vs.map (fun v => v)) true
  | .shortPrim t => .primitive ⟨t, true, none, false⟩
  | .long l =>
    .primitive
      ⟨l.type,
       (l.required.getD false
         || (match l.default with
             | none => false
             | some _ => false)),
       l.default,
       l.nullable.getD false⟩

/-! ## `coerceValue` -/

/-- Result of `coerceValue`: JS `undefined`, a defined value, or one of the
two error-marker objects `{__badNumber: raw}` / `{__badBoolean: raw}`. -/
inductive CoerceResult
  | undef
  | val (v : Value)
  | badNumber (raw : String)
  | badBoolean (raw : String)
deriving DecidableEq, Repr

/-- The truthy set of the boolean coercion, `["1", "true", "yes", "on"]`. -/
def truthyStrings : List String := ["1", "true", "yes", "on"]

/-- The falsy set of the boolean coercion, `["0", "false", "no", "off"]`. -/
def falsyStrings : List String := ["0", "false", "no", "off"]

/-- `coerceValue(raw, def)` from the source: enums pass the raw value (or
`undefined`) through; for primitives an absent raw yields the default if
defined else `undefined`; a present raw is returned unchanged for strings
(except `"null"` on a nullable field, which becomes `null`), parsed with
`Number` for numbers (NaN yields the `__badNumber` marker), and matched
case-insensitively against the truthy/falsy sets for booleans (anything
else yields the `__badBoolean` marker). -/
def coerceValue (raw : Option String) (d : NormalizedDef) : CoerceResult :=
  match d with
  | .enum _ _ =>
    match raw with
    | none => .undef
    | some r => .val (.str r)
  | .primitive p =>
    match raw with
    | none =>
      match p.default with
      | none => .undef
      | some v => .val v
    | some r =>
      match p.type with
      | .string => if p.nullable && r == "null" then .val .null else .val (.str r)
      | .number =>
        match jsStringToNumber r with
        | .nan => .badNumber r
        | n => .val (.num n)
      | .boolean =>
        let lowered := jsToLowerCase r
        if truthyStrings.contains lowered then .val (.bool true)
        else if falsyStrings.contains lowered then .val (.bool false)
        else .badBoolean r

/-! ## Problems and the aggregated error -/

/-- One field-level failure `{key, message, value?}`. -/
structure Problem where
  key : String
  message : String
  value : Option String
deriving DecidableEq, Repr

/-- `buildMessage(problems)`: a header line followed by one line per
problem, quoting the raw value when present. -/
def buildMessage (problems : List Problem) : String :=
  let lines :=
    "❌ Invalid environment configuration:" ::
      problems.map (fun p =>
        let valPart :=
          match p.value with
          | some v => " (value: \"" ++ v ++ "\")"
          | none => ""
        "- " ++ p.key ++ ": " ++ p.message ++ valPart)
  String.intercalate "\n" lines

/-- `EnvValidationError`, carrying the combined message and the ordered
problem list. -/
structure EnvValidationError where
  message : String
  problems : List Problem
deriving DecidableEq, Repr

/-- The `EnvValidationError` constructor: `super(buildMessage(problems))`
and `this.problems = problems`. -/
def mkEnvValidationError (problems : List Problem) : EnvValidationError :=
  ⟨buildMessage problems, problems⟩

/-- The interpolated message of the enum-missing problem. -/
def enumMissingMessage (values : List String) : String :=
  "is missing (enum: allowed "
    ++ String.intercalate ", " (values.map (fun v => "\"" ++ v ++ "\"")) ++ ")"

/-- The interpolated message of the enum-mismatch problem. -/
def enumBadMessage (values : List String) : String :=
  "must be one of: " ++ String.intercalate ", " values

/-! ## `createEnv` -/

/-- The body of one iteration of `createEnv`'s loop over the declared keys:
either the `Problem` pushed for this field (the iteration then `continue`s
without touching `result`), or the value assigned to `result[key]`
(`none` = the JS `undefined` assigned for an optional absent field). -/
def fieldStep (key : String) (rawDef : FieldDef) (rawValue : Option String) :
    Sum Problem (Option Value) :=
  match normalizeDef rawDef with
  | .enum values _req =>
    match rawValue with
    | none => .inl ⟨key, enumMissingMessage values, none⟩
    | some r =>
      if values.contains r then .inr (some (.str r))
      else .inl ⟨key, enumBadMessage values, some r⟩
  | .primitive p =>
    match coerceValue rawValue (.primitive p) with
    | .badNumber r => .inl ⟨key, "is not a valid number", some r⟩
    | .badBoolean r => .inl ⟨key, "is not a valid boolean", some r⟩
    | c =>
      let hasDefault := p.default.isSome
      let provided := rawValue.isSome || hasDefault || p.nullable
      if !provided && p.required then .inl ⟨key, "is required but missing", none⟩
      else
        .inr
          (match c with
           | .val v => some v
           | _ => none)

/-- A JS object as `createEnv` builds and returns it: ordered own
properties plus the `Object.freeze` flag. -/
structure JSObject where
  entries : List (String × Option Value)
  frozen : Bool
deriving DecidableEq, Repr

/-- `Object.freeze(o)`. -/
def JSObject.freeze (o : JSObject) : JSObject :=
  ⟨o.entries, true⟩

/-- `Object.keys(o)`: the own property names in insertion order. -/
def JSObject.keys (o : JSObject) : List String :=
  o.entries.map Prod.fst

/-- Property read `o[k]`: `none` when `k` is not an own property,
`some v` (with `v` possibly the `undefined` value `none`) when it is. -/
def JSObject.get (o : JSObject) (k : String) : Option (Option Value) :=
  (o.entries.find? (fun e => e.1 == k)).map Prod.snd

/-- Property write `o[k] = v` in non-strict JS: a no-op on a frozen
object, otherwise update-or-append. -/
def JSObject.set (o : JSObject) (k : String) (v : Option Value) : JSObject :=
  if o.frozen then o
  else if (o.entries.find? (fun e => e.1 == k)).isSome then
    ⟨o.entries.map (fun e => if e.1 == k then (e.1, v) else e), o.frozen⟩
  else ⟨o.entries ++ [(k, v)], o.frozen⟩

/-- Property delete `delete o[k]` in non-strict JS: a no-op on a frozen
object, otherwise removal. -/
def JSObject.delete (o : JSObject) (k : String) : JSObject :=
  if o.frozen then o
  else ⟨o.entries.filter (fun e => !(e.1 == k)), o.frozen⟩

/-- One step of `createEnv`'s loop acting on the accumulated
`(problems, result)` pair. -/
def createEnvStep (env : String → Option String)
    (acc : List Problem × List (String × Option Value)) (kd : String × FieldDef) :
    List Problem × List (String × Option Value) :=
  match fieldStep kd.1 kd.2 (env kd.1) with
  | .inl p => (acc.1 ++ [p], acc.2)
  | .inr v => (acc.1, acc.2 ++ [(kd.1, v)])

/-- `createEnv(defs)` over an external source `env` standing for
`process.env`: loop over the declared keys in declaration order
accumulating problems and resolved entries; throw a single
`EnvValidationError` if any problem was collected, otherwise return the
frozen result object. -/
def createEnv (defs : List (String × FieldDef)) (env : String → Option String) :
    Except EnvValidationError JSObject :=
  let res := defs.foldl (createEnvStep env) ([], [])
  if res.1.length > 0 then .error (mkEnvValidationError res.1)
  else .ok (JSObject.freeze ⟨res.2, false⟩)

instance : DecidableEq (Except EnvValidationError JSObject)
  | .ok a, .ok b => decidable_of_iff (a = b) (by simp)
  | .error a, .error b => decidable_of_iff (a = b) (by simp)
  | .ok _, .error _ => isFalse (by simp)
  | .error _, .ok _ => isFalse (by simp)

/-! ## Characterizing the loop of `createEnv` -/

/-- The problems `createEnv`'s loop pushes, one per failing field, in
declaration order. -/
def collectProblems (defs : List (String × FieldDef)) (env : String → Option String) :
    List Problem :=
  defs.filterMap fun kd =>
    match fieldStep kd.1 kd.2 (env kd.1) with
    | .inl p => some p
    | .inr _ => none

/-- The entries `createEnv`'s loop assigns into `result`, in declaration
order. -/
def collectResults (defs : List (String × FieldDef)) (env : String → Option String) :
    List (String × Option Value) :=
  defs.filterMap fun kd =>
    match fieldStep kd.1 kd.2 (env kd.1) with
    | .inl _ => none
    | .inr v => some (kd.1, v)

theorem foldl_createEnvStep (env : String → Option String) :
    ∀ (defs : List (String × FieldDef)) (acc : List Problem × List (String × Option Value)),
      defs.foldl (createEnvStep env) acc =
        (acc.1 ++ collectProblems defs env, acc.2 ++ collectResults defs env) := by
  intro defs
  induction defs with
  | nil => intro acc; simp [collectProblems, collectResults]
  | cons kd tl ih =>
    intro acc
    simp only [List.foldl_cons]
    rw [ih]
    unfold createEnvStep collectProblems collectResults
    cases h : fieldStep kd.1 kd.2 (env kd.1) <;>
      simp [h, List.filterMap_cons, List.append_assoc]

/-- `createEnv` in terms of the per-field outcomes: it returns the frozen
object of all assigned entries when no field fails, and the single
aggregated error of all collected problems otherwise. -/
theorem createEnv_eq (defs : List (String × FieldDef)) (env : String → Option String) :
    createEnv defs env =
      if collectProblems defs env = [] then
        .ok ⟨collectResults defs env, true⟩
      else .error (mkEnvValidationError (collectProblems defs env)) := by
  unfold createEnv
  rw [foldl_createEnvStep]
  simp only [List.nil_append]
  rcases h : collectProblems defs env with _ | ⟨p, ps⟩ <;>
    simp [h, JSObject.freeze]

theorem collectProblems_eq_nil (defs : List (String × FieldDef))
    (env : String → Option String)
    (h : ∀ kd ∈ defs, (fieldStep kd.1 kd.2 (env kd.1)).isRight) :
    collectProblems defs env = [] := by
  induction defs with
  | nil => simp [collectProblems]
  | cons kd tl ih =>
    have hhd := h kd (List.mem_cons_self kd tl)
    have htl : ∀ kd' ∈ tl, (fieldStep kd'.1 kd'.2 (env kd'.1)).isRight :=
      fun kd' hm => h kd' (List.mem_cons_of_mem kd hm)
    unfold collectProblems at ih ⊢
    cases hf : fieldStep kd.1 kd.2 (env kd.1) with
    | inl p => rw [hf] at hhd; simp [Sum.isRight] at hhd
    | inr v => simp [List.filterMap_cons, hf, ih htl]

theorem collectResults_map_fst (defs : List (String × FieldDef))
    (env : String → Option String)
    (h : ∀ kd ∈ defs, (fieldStep kd.1 kd.2 (env kd.1)).isRight) :
    (collectResults defs env).map Prod.fst = defs.map Prod.fst := by
  induction defs with
  | nil => simp [collectResults]
  | cons kd tl ih =>
    have hhd := h kd (List.mem_cons_self kd tl)
    have htl : ∀ kd' ∈ tl, (fieldStep kd'.1 kd'.2 (env kd'.1)).isRight :=
      fun kd' hm => h kd' (List.mem_cons_of_mem kd hm)
    unfold collectResults at ih ⊢
    cases hf : fieldStep kd.1 kd.2 (env kd.1) with
    | inl p => rw [hf] at hhd; simp [Sum.isRight] at hhd
    | inr v => simp [List.filterMap_cons, hf, ih htl]

/-- `fieldStep` on a field that normalizes to a primitive: coercion first,
its two error markers become the two coercion problems, and only otherwise
does the presence/required check run. -/
theorem fieldStep_primitive (key : String) (d : FieldDef) (pf : PrimField)
    (raw : Option String) (h : normalizeDef d = .primitive pf) :
    fieldStep key d raw =
      match coerceValue raw (.primitive pf) with
      | .badNumber r => .inl ⟨key, "is not a valid number", some r⟩
      | .badBoolean r => .inl ⟨key, "is not a valid boolean", some r⟩
      | c =>
        if !(raw.isSome || pf.default.isSome || pf.nullable) && pf.required then
          .inl ⟨key, "is required but missing", none⟩
        else
          .inr (match c with
                | .val v => some v
                | _ => none) := by
  unfold fieldStep
  rw [h]

/-! ## The claims -/

/-- **C1.** For every schema (a record: distinct declared names) and every
external source in which each declared field satisfies its constraints
(its per-field evaluation yields no problem), `createEnv` returns without
raising, and the returned Resolved Environment has as its keys exactly the
declared field names of the schema, no more and no fewer; optional-missing
fields are present in the entry list with the `undefined` value (`none`)
rather than omitted. -/
theorem createEnv_ok_keys (defs : List (String × FieldDef)) (env : String → Option String)
    (_hnd : (defs.map Prod.fst).Nodup)
    (h : ∀ kd ∈ defs, (fieldStep kd.1 kd.2 (env kd.1)).isRight) :
    ∃ o : JSObject, createEnv defs env = .ok o ∧ o.keys = defs.map Prod.fst := by
  refine ⟨⟨collectResults defs env, true⟩, ?_, ?_⟩
  · rw [createEnv_eq, collectProblems_eq_nil defs env h]
    simp
  · simpa [JSObject.keys] using collectResults_map_fst defs env h

/-- Witness for C1: a two-field schema (a defaulted number and an optional
string, both raw-absent) validates, and the result has exactly the two
declared keys — the optional missing field included. -/
theorem createEnv_ok_keys_witness :
    ∃ o : JSObject,
      createEnv
          [("PORT", .long ⟨.number, none, some (.num (.finite 3000)), none, none⟩),
           ("OPTIONAL", .long ⟨.string, none, none, none, none⟩)]
          (fun _ => none) = .ok o ∧
      o.keys =
        ([("PORT", FieldDef.long ⟨.number, none, some (.num (.finite 3000)), none, none⟩),
          ("OPTIONAL", FieldDef.long ⟨.string, none, none, none, none⟩)].map Prod.fst) :=
  createEnv_ok_keys
    [("PORT", .long ⟨.number, none, some (.num (.finite 3000)), none, none⟩),
     ("OPTIONAL", .long ⟨.string, none, none, none, none⟩)]
    (fun _ => none) (by decide) (by decide)

/-- **C2.** `createEnv` processes all declared fields without
short-circuiting and raises at most one error per call: the collected
problem list has one problem per failing field, in field declaration order
(`collectProblems` is a `filterMap` over the declarations in order), and a
single `EnvValidationError` carrying that whole list is raised exactly when
it is non-empty.  In particular the schema with a malformed number and a
missing required string raises one error containing exactly those two
problems in declaration order. -/
theorem createEnv_single_error_aggregation :
    (∀ (defs : List (String × FieldDef)) (env : String → Option String),
        createEnv defs env =
          if collectProblems defs env = [] then
            Except.ok ⟨collectResults defs env, true⟩
          else Except.error (mkEnvValidationError (collectProblems defs env))) ∧
    createEnv
        [("PORT", .long ⟨.number, none, none, none, none⟩),
         ("DATABASE_URL", .long ⟨.string, some true, none, none, none⟩)]
        (fun k => if k = "PORT" then some "notanumber" else none) =
      .error (mkEnvValidationError
        [⟨"PORT", "is not a valid number", some "notanumber"⟩,
         ⟨"DATABASE_URL", "is required but missing", none⟩]) := by
  refine ⟨createEnv_eq, ?_⟩
  rfl

/-- **C3.** For a primitive field the required/presence check runs only
after coercion and is skipped when a coercion problem was raised (a
coercion problem is what the step reports then); the problem
`"is required but missing"` arises exactly when the field is not provided
(raw absent, no default, not nullable) and `required` is true
(conjuncts 1 and 2); consequently a long-form field with a defined default
never yields that problem, whatever `required` says and even with the raw
value absent (conjunct 3); conjunct 4 shows the problem does arise for a
required defaultless string. -/
theorem requiredMissing_characterization :
    (∀ (key : String) (d : FieldDef) (pf : PrimField) (raw : Option String) (p : Problem),
        normalizeDef d = .primitive pf →
        fieldStep key d raw = .inl p →
        p.message = "is required but missing" →
        raw = none ∧ pf.default = none ∧ pf.nullable = false ∧ pf.required = true ∧
          p = ⟨key, "is required but missing", none⟩) ∧
    (∀ (key : String) (d : FieldDef) (pf : PrimField),
        normalizeDef d = .primitive pf →
        pf.default = none → pf.nullable = false → pf.required = true →
        fieldStep key d none = .inl ⟨key, "is required but missing", none⟩) ∧
    (∀ (key : String) (t : PrimitiveType) (req : Option Bool) (v : Value)
        (nul : Option Bool) (desc : Option String) (raw : Option String) (p : Problem),
        fieldStep key (.long ⟨t, req, some v, nul, desc⟩) raw = .inl p →
        p.message ≠ "is required but missing") ∧
    fieldStep "DATABASE_URL" (.long ⟨.string, some true, none, none, none⟩) none =
      .inl ⟨"DATABASE_URL", "is required but missing", none⟩ := by
  refine ⟨?_, ?_, ?_, by decide⟩
  · intro key d pf raw p h hstep hmsg
    rw [fieldStep_primitive key d pf raw h] at hstep
    cases hc : coerceValue raw (.primitive pf) <;> rw [hc] at hstep
    case badNumber r =>
      simp only [Sum.inl.injEq] at hstep
      rw [← hstep] at hmsg
      simp at hmsg
    case badBoolean r =>
      simp only [Sum.inl.injEq] at hstep
      rw [← hstep] at hmsg
      simp at hmsg
    all_goals
      simp only [] at hstep
      split at hstep
      case isTrue hcond =>
        simp only [Bool.and_eq_true, Bool.not_eq_true', Bool.or_eq_false_iff] at hcond
        obtain ⟨⟨⟨hraw, hdef⟩, hnul⟩, hreq⟩ := hcond
        simp only [Sum.inl.injEq] at hstep
        refine ⟨?_, ?_, hnul, hreq, hstep.symm⟩
        · cases raw with
          | none => rfl
          | some r => simp at hraw
        · cases hpd : pf.default with
          | none => rfl
          | some w => rw [hpd] at hdef; simp at hdef
      case isFalse hcond => cases hstep
  · intro key d pf h hd hn hr
    rw [fieldStep_primitive key d pf none h]
    have hc : coerceValue none (.primitive pf) = .undef := by
      simp [coerceValue, hd]
    rw [hc]
    simp [hd, hn, hr]
  · intro key t req v nul desc raw p hstep hmsg
    rw [fieldStep_primitive key (.long ⟨t, req, some v, nul, desc⟩)
        ⟨t, (req.getD false
              || (match (some v : Option Value) with
                  | none => false
                  | some _ => false)), some v, nul.getD false⟩ raw rfl] at hstep
    cases hc : coerceValue raw (.primitive _) <;> rw [hc] at hstep
    case badNumber r =>
      simp only [Sum.inl.injEq] at hstep
      rw [← hstep] at hmsg
      simp at hmsg
    case badBoolean r =>
      simp only [Sum.inl.injEq] at hstep
      rw [← hstep] at hmsg
      simp at hmsg
    all_goals simp at hstep

/-- **C4.** For every boolean-typed primitive field with a present raw
string, the resolution is exactly: case-insensitive member of
`{1, true, yes, on}` → `true`; case-insensitive member of
`{0, false, no, off}` → `false`; anything else → the `__badBoolean` marker
carrying the raw value, which `createEnv` turns into the problem
`"is not a valid boolean"`.  In particular `"TRUE"`, `"yes"`, `"on"`,
`"1"` resolve to `true`; `"0"`, `"off"`, `"No"` resolve to `false`;
`"maybe"` yields the problem. -/
theorem boolean_coercion :
    (∀ (req nul : Bool) (dflt : Option Value) (r : String),
        coerceValue (some r) (.primitive ⟨.boolean, req, dflt, nul⟩) =
          (if truthyStrings.contains (jsToLowerCase r) then .val (.bool true)
           else if falsyStrings.contains (jsToLowerCase r) then .val (.bool false)
           else .badBoolean r)) ∧
    coerceValue (some "TRUE") (.primitive ⟨.boolean, true, none, false⟩) = .val (.bool true) ∧
    coerceValue (some "yes") (.primitive ⟨.boolean, true, none, false⟩) = .val (.bool true) ∧
    coerceValue (some "on") (.primitive ⟨.boolean, true, none, false⟩) = .val (.bool true) ∧
    coerceValue (some "1") (.primitive ⟨.boolean, true, none, false⟩) = .val (.bool true) ∧
    coerceValue (some "0") (.primitive ⟨.boolean, true, none, false⟩) = .val (.bool false) ∧
    coerceValue (some "off") (.primitive ⟨.boolean, true, none, false⟩) = .val (.bool false) ∧
    coerceValue (some "No") (.primitive ⟨.boolean, true, none, false⟩) = .val (.bool false) ∧
    fieldStep "DEBUG" (.long ⟨.boolean, none, none, none, none⟩) (some "maybe") =
      .inl ⟨"DEBUG", "is not a valid boolean", some "maybe"⟩ := by
  refine ⟨fun req nul dflt r => rfl, ?_⟩
  decide

/-- **C5.** For every string-typed primitive field with `nullable = true`:
a present raw value resolves to `null` when it is the literal `"null"` and
to itself unchanged otherwise; and an absent raw value with no default
resolves to the `undefined` entry with no problem, whatever `required`
says, because `nullable` counts as "provided". -/
theorem nullable_string :
    (∀ (req : Bool) (dflt : Option Value) (r : String),
        coerceValue (some r) (.primitive ⟨.string, req, dflt, true⟩) =
          (if r == "null" then .val .null else .val (.str r))) ∧
    (∀ (key : String) (req : Option Bool) (desc : Option String),
        fieldStep key (.long ⟨.string, req, none, some true, desc⟩) none = .inr none) ∧
    fieldStep "API_KEY" (.long ⟨.string, none, none, some true, none⟩) (some "null") =
      .inr (some .null) ∧
    fieldStep "API_KEY" (.long ⟨.string, none, none, some true, none⟩) none = .inr none := by
  exact ⟨fun req dflt r => rfl, fun key req desc => rfl, by decide, by decide⟩

/-- **C6.** Schema normalization maps every declaration to exactly one
canonical form (it is a total Lean function, hence total and pure): an
enum shorthand becomes `EnumField` with the same values and
`required = true`; a bare primitive tag becomes `PrimitiveField` with
`required = true`, no default and `nullable = false`; a long form becomes
`PrimitiveField` whose `required` is true exactly when the explicit flag
is `some true` — a present default alone leaves `required = false`
(last conjunct). -/
theorem normalizeDef_canonical :
    (∀ vs : List String, normalizeDef (.shortEnum vs) = .enum vs true) ∧
    (∀ t : PrimitiveType, normalizeDef (.shortPrim t) = .primitive ⟨t, true, none, false⟩) ∧
    (∀ l : LongDef,
        normalizeDef (.long l) =
          .primitive ⟨l.type, l.required == some true, l.default, l.nullable == some true⟩) ∧
    (∀ (t : PrimitiveType) (v : Value) (desc : Option String),
        normalizeDef (.long ⟨t, none, some v, none, desc⟩) =
          .primitive ⟨t, false, some v, false⟩) := by
  refine ⟨?_, fun t => rfl, ?_, fun t v desc => rfl⟩
  · intro vs
    simp [normalizeDef]
  · intro l
    obtain ⟨t, req, dflt, nul, desc⟩ := l
    rcases req with _ | rb
    all_goals rcases nul with _ | nb
    all_goals rcases dflt with _ | dv
    all_goals try cases rb
    all_goals try cases nb
    all_goals rfl

theorem jsStringToNumber_4000 : jsStringToNumber "4000" = .finite 4000 := by
  simp [jsStringToNumber, trimJSWhite, isJSWhitespace, jsWhitespaceChars,
    parseStrDecimalLiteral, parseUnsignedDecimal, splitDecDigits,
    parseExponentPart, decDigitsVal]

/-- **C7.** For every primitive field whose raw value is absent, the
resolved candidate is the declared default when one is defined (passed
through without any coercion, whatever its type) and `undefined`
otherwise.  In particular `{PORT: {type:"number", default:3000}}` resolves
`PORT` to the number `3000` when the raw value is absent and to the number
`4000` (not a string) when the raw value is `"4000"`. -/
theorem absent_resolves_to_default :
    (∀ (t : PrimitiveType) (req nul : Bool),
        coerceValue none (.primitive ⟨t, req, none, nul⟩) = .undef) ∧
    (∀ (t : PrimitiveType) (req nul : Bool) (v : Value),
        coerceValue none (.primitive ⟨t, req, some v, nul⟩) = .val v) ∧
    createEnv [("PORT", .long ⟨.number, none, some (.num (.finite 3000)), none, none⟩)]
        (fun _ => none) =
      .ok ⟨[("PORT", some (.num (.finite 3000)))], true⟩ ∧
    createEnv [("PORT", .long ⟨.number, none, some (.num (.finite 3000)), none, none⟩)]
        (fun k => if k = "PORT" then some "4000" else none) =
      .ok ⟨[("PORT", some (.num (.finite 4000)))], true⟩ := by
  refine ⟨fun t req nul => rfl, fun t req nul v => rfl, by decide, ?_⟩
  rw [createEnv_eq]
  simp [collectProblems, collectResults, fieldStep, normalizeDef, coerceValue,
    jsStringToNumber_4000]

/-- **C8.** The Resolved Environment returned by `createEnv` is frozen:
any post-construction property write or delete is a no-op (the JS
non-strict semantics of a frozen object), and every field read afterward
yields the same value as at construction time. -/
theorem createEnv_result_frozen (defs : List (String × FieldDef))
    (env : String → Option String) (o : JSObject)
    (h : createEnv defs env = .ok o) :
    o.frozen = true ∧
    (∀ (k : String) (v : Option Value), o.set k v = o) ∧
    (∀ k : String, o.delete k = o) ∧
    (∀ (k : String) (v : Option Value) (k' : String), (o.set k v).get k' = o.get k') := by
  have hf : o.frozen = true := by
    rw [createEnv_eq] at h
    split at h
    · cases h; rfl
    · cases h
  refine ⟨hf, ?_, ?_, ?_⟩
  · intro k v
    simp [JSObject.set, hf]
  · intro k
    simp [JSObject.delete, hf]
  · intro k v k'
    simp [JSObject.set, hf]

/-- Witness for C8: the frozen one-field result of a concrete successful
`createEnv` call absorbs writes and deletes, and reads are unchanged. -/
theorem createEnv_result_frozen_witness :
    (⟨[("A", some (Value.str "x"))], true⟩ : JSObject).frozen = true ∧
    (∀ (k : String) (v : Option Value),
        JSObject.set ⟨[("A", some (Value.str "x"))], true⟩ k v =
          ⟨[("A", some (Value.str "x"))], true⟩) ∧
    (∀ k : String,
        JSObject.delete ⟨[("A", some (Value.str "x"))], true⟩ k =
          ⟨[("A", some (Value.str "x"))], true⟩) ∧
    (∀ (k : String) (v : Option Value) (k' : String),
        (JSObject.set ⟨[("A", some (Value.str "x"))], true⟩ k v).get k' =
          JSObject.get ⟨[("A", some (Value.str "x"))], true⟩ k') :=
  createEnv_result_frozen [("A", .shortPrim .string)] (fun _ => some "x")
    ⟨[("A", some (.str "x"))], true⟩ (by decide)

/-- **C9.** The literal raw string `"null"` maps to `null` only for
string-typed nullable fields: on a number-typed field — even one declared
`nullable: true` — it yields the `"is not a valid number"` problem
carrying the raw value, and on a boolean-typed nullable field the
`"is not a valid boolean"` problem. -/
theorem null_literal_only_for_strings :
    (∀ (req nul : Bool) (dflt : Option Value),
        coerceValue (some "null") (.primitive ⟨.number, req, dflt, nul⟩) =
          .badNumber "null") ∧
    (∀ (req nul : Bool) (dflt : Option Value),
        coerceValue (some "null") (.primitive ⟨.boolean, req, dflt, nul⟩) =
          .badBoolean "null") ∧
    (∀ (key : String) (req : Option Bool) (dflt : Option Value) (desc : Option String),
        fieldStep key (.long ⟨.number, req, dflt, some true, desc⟩) (some "null") =
          .inl ⟨key, "is not a valid number", some "null"⟩) ∧
    (∀ (key : String) (req : Option Bool) (dflt : Option Value) (desc : Option String),
        fieldStep key (.long ⟨.boolean, req, dflt, some true, desc⟩) (some "null") =
          .inl ⟨key, "is not a valid boolean", some "null"⟩) := by
  exact ⟨fun req nul dflt => rfl, fun req nul dflt => rfl,
    fun key req dflt desc => rfl, fun key req dflt desc => rfl⟩

/-- **C10.** For every number-typed primitive field, a present raw value
that is empty or consists only of (JS) whitespace resolves to the number
`0` rather than producing a problem, because `Number` of such a string
is `0`, not NaN. -/
theorem empty_string_number_zero (r : String) (req nul : Bool) (dflt : Option Value)
    (h : r.data.all isJSWhitespace = true) :
    coerceValue (some r) (.primitive ⟨.number, req, dflt, nul⟩) =
      .val (.num (.finite 0)) := by
  have h' : ∀ c ∈ r.toList, isJSWhitespace c := by
    simpa [String.toList, List.all_eq_true] using h
  have ht : trimJSWhite r.toList = [] := by
    unfold trimJSWhite
    rw [List.dropWhile_eq_nil_iff.mpr h']
    simp
  have hn : jsStringToNumber r = .finite 0 := by
    unfold jsStringToNumber
    rw [ht]
    rfl
  simp [coerceValue, hn]

/-- Witness for C10: the empty raw string and a whitespace-only raw string
both resolve to the number `0` on a number field. -/
theorem empty_string_number_zero_witness :
    coerceValue (some "") (.primitive ⟨.number, true, none, false⟩) =
      .val (.num (.finite 0)) ∧
    coerceValue (some " \t ") (.primitive ⟨.number, true, none, false⟩) =
      .val (.num (.finite 0)) :=
  ⟨empty_string_number_zero "" true false none (by decide),
   empty_string_number_zero " \t " true false none (by decide)⟩

end SafeEnvLite
